import Mathlib

/-!
Verification of the email-listing core of `n8n-nodes-imap`
(`src/nodes/Imap/operations/email/functions/EmailGetList.ts`).

The development shallowly embeds the source file's data model and logic:

* `BodyStructureNode` — the parsed IMAP body structure handed to
  `getEmailPartsInfoRecursive`.  JavaScript objects may lack a property, so
  every field is an `Option`; in particular `childNodes` is
  `Option (List BodyStructureNode)`: `none` models an absent `childNodes`
  property (falsy in JS), while `some []` models a present-but-empty array
  (truthy in JS, iterating zero children).
* `getEmailPartsInfoRecursive` — the recursive walker (source lines 41–71).
* the classification loop, fetch-query construction and the per-message
  processing of `executeImapAction` (source lines 119–245).
* `streamToString` — stream materialisation (source lines 27–38); the byte
  decoding models Node's `Buffer.toString('utf8')`, which performs WHATWG
  UTF-8 decoding with U+FFFD replacement and never throws.

Strings fetched as message content are represented as lists of Unicode
code points (`List Nat`) so that decoding can be reasoned about byte by
byte.
-/

/-- A node of the parsed IMAP body structure (the `any`-typed
`bodyStructure` object of the source).  Absent JS properties are `none`. -/
inductive BodyStructureNode : Type where
  | mk
      (part : Option String)
      (type : Option String)
      (encoding : Option String)
      (size : Option Nat)
      (disposition : Option String)
      (dispositionParametersFilename : Option String)
      (childNodes : Option (List BodyStructureNode)) : BodyStructureNode

/-- The `part` property of a body-structure node. -/
def BodyStructureNode.part : BodyStructureNode → Option String
  | .mk p _ _ _ _ _ _ => p

/-- The `type` property of a body-structure node. -/
def BodyStructureNode.type : BodyStructureNode → Option String
  | .mk _ t _ _ _ _ _ => t

/-- The `encoding` property of a body-structure node. -/
def BodyStructureNode.encoding : BodyStructureNode → Option String
  | .mk _ _ e _ _ _ _ => e

/-- The `size` property of a body-structure node. -/
def BodyStructureNode.size : BodyStructureNode → Option Nat
  | .mk _ _ _ s _ _ _ => s

/-- The `disposition` property of a body-structure node. -/
def BodyStructureNode.disposition : BodyStructureNode → Option String
  | .mk _ _ _ _ d _ _ => d

/-- The `dispositionParameters?.filename` access of the source. -/
def BodyStructureNode.dispositionParametersFilename : BodyStructureNode → Option String
  | .mk _ _ _ _ _ f _ => f

/-- The `childNodes` property of a body-structure node. -/
def BodyStructureNode.childNodes : BodyStructureNode → Option (List BodyStructureNode)
  | .mk _ _ _ _ _ _ c => c

/-- The children actually iterated over: the `childNodes` list when the
property is present, nothing otherwise. -/
def BodyStructureNode.childrenList (b : BodyStructureNode) : List BodyStructureNode :=
  (b.childNodes).getD []

/-- The `EmailPartInfo` interface of the source (lines 17–25). -/
structure EmailPartInfo where
  partId : Option String
  filename : Option String
  type : Option String
  encoding : Option String
  size : Option Nat
  disposition : Option String
deriving Repr, DecidableEq

/-- The part-info object built for one child node inside the walker loop
(source lines 48–59): `partId`/`type`/`encoding`/`size` are always copied,
`disposition` is copied when present, and `filename` is copied from
`dispositionParameters?.filename` only when `disposition === 'attachment'`. -/
def partInfoOf (c : BodyStructureNode) : EmailPartInfo :=
  { partId := c.part
    type := c.type
    encoding := c.encoding
    size := c.size
    disposition := c.disposition
    filename := if c.disposition == some "attachment" then c.dispositionParametersFilename else none }

mutual

/-- `getEmailPartsInfoRecursive` (source lines 41–71): returns `[]` when the
`childNodes` property is absent, otherwise walks the children in order. -/
def getEmailPartsInfoRecursive : BodyStructureNode → List EmailPartInfo
  | .mk _ _ _ _ _ _ none => []
  | .mk _ _ _ _ _ _ (some cs) => walkChildren cs

/-- The walker's `for (const childNode of bodyStructure.childNodes)` loop:
a child is emitted when its `size` property is present, then the child's own
subtree is walked.  The source guards the recursive call with
`if (childNode.childNodes)`; the guard is absorbed here because
`getEmailPartsInfoRecursive` returns `[]` on a node without `childNodes`. -/
def walkChildren : List BodyStructureNode → List EmailPartInfo
  | [] => []
  | c :: rest =>
      ((if c.size.isSome then [partInfoOf c] else []) ++ getEmailPartsInfoRecursive c)
        ++ walkChildren rest

end

mutual

/-- All nodes of a body-structure tree in pre-order (node before its
children, children in the given order).  Specification-side definition used
to state traversal-order properties. -/
def preorderNodes : BodyStructureNode → List BodyStructureNode
  | .mk p t e s d f none => [.mk p t e s d f none]
  | .mk p t e s d f (some cs) => .mk p t e s d f (some cs) :: preorderForest cs

/-- Pre-order concatenation of a list of trees. -/
def preorderForest : List BodyStructureNode → List BodyStructureNode
  | [] => []
  | c :: rest => preorderNodes c ++ preorderForest rest

end

/-- The attachment record pushed onto `attachmentsInfo` (source lines
190–196): the fields `partId`, `filename`, `type`, `encoding`, `size` of the
part info. -/
structure AttachmentInfo where
  partId : Option String
  filename : Option String
  type : Option String
  encoding : Option String
  size : Option Nat
deriving Repr, DecidableEq

/-- Conversion of a part info to the attachment record pushed by the loop. -/
def attachmentOf (p : EmailPartInfo) : AttachmentInfo :=
  { partId := p.partId, filename := p.filename, type := p.type,
    encoding := p.encoding, size := p.size }

/-- The mutable state of the classification loop (source lines 174–176):
`textPartId` and `htmlPartId` start as `null`, `attachmentsInfo` starts
empty. -/
structure Classification where
  attachments : List AttachmentInfo
  textPartId : Option String
  htmlPartId : Option String
deriving Repr, DecidableEq

/-- One iteration of the classification loop (source lines 188–205):
attachment-disposition parts are appended to the attachment list; otherwise
a `text/plain` part overwrites `textPartId` and a `text/html` part
overwrites `htmlPartId`. -/
def classifyStep (acc : Classification) (p : EmailPartInfo) : Classification :=
  if p.disposition == some "attachment" then
    { acc with attachments := acc.attachments ++ [attachmentOf p] }
  else
    let acc1 := if p.type == some "text/plain" then { acc with textPartId := p.partId } else acc
    if p.type == some "text/html" then { acc1 with htmlPartId := p.partId } else acc1

/-- The whole classification loop over a list of part infos. -/
def classifyParts (parts : List EmailPartInfo) : Classification :=
  parts.foldl classifyStep { attachments := [], textPartId := none, htmlPartId := none }

/-- The body-structure analysis of `executeImapAction` (source lines
179–216): nothing when `bodyStructure` is falsy; the walker plus the
classification loop when `childNodes` is truthy; otherwise the single-part
branch using the sentinel part id `"TEXT"`. -/
def classifyRoot (ob : Option BodyStructureNode) : Classification :=
  match ob with
  | none => { attachments := [], textPartId := none, htmlPartId := none }
  | some bs =>
    if bs.childNodes.isSome then
      classifyParts (getEmailPartsInfoRecursive bs)
    else
      { attachments := []
        textPartId := if bs.type == some "text/plain" then some "TEXT" else none
        htmlPartId := if bs.type == some "text/html" then some "TEXT" else none }

/-- The `FetchQueryObject` fields set by the source (lines 131–156). -/
structure FetchQueryObject where
  uid : Bool
  envelope : Bool
  bodyStructure : Bool
  flags : Bool
  size : Bool
deriving Repr, DecidableEq

/-- Construction of the fetch query from the `includeParts` node parameter
(source lines 131–156).  The `EmailParts` enum values are the string
literals `"bodyStructure"`, `"flags"`, `"size"`, `"attachmentsInfo"`,
`"textContent"`, `"htmlContent"`. -/
def buildFetchQuery (includeParts : List String) : FetchQueryObject :=
  let q : FetchQueryObject :=
    { uid := true, envelope := true, bodyStructure := false, flags := false, size := false }
  let q := if includeParts.contains "bodyStructure" then { q with bodyStructure := true } else q
  let q := if includeParts.contains "flags" then { q with flags := true } else q
  let q := if includeParts.contains "size" then { q with size := true } else q
  let q := if includeParts.contains "attachmentsInfo" then { q with bodyStructure := true } else q
  if includeParts.contains "textContent" || includeParts.contains "htmlContent" then
    { q with bodyStructure := true }
  else q

/-- JavaScript truthiness of a possibly-absent string (`null`, `undefined`
and `""` are falsy): the guards `includeTextContent && textPartId` of the
source. -/
def optTruthy : Option String → Option String
  | none => none
  | some s => if s == "" then none else some s


/-- A UTF-8 continuation byte (`10xxxxxx`). -/
def isCont (b : Nat) : Bool := 0x80 ≤ b && b ≤ 0xBF

/-- WHATWG UTF-8 decoding with U+FFFD replacement, the semantics of Node's
`Buffer.toString('utf8')` used by `streamToString` (source line 34): invalid
sequences are replaced by U+FFFD (maximal-subpart policy) and decoding never
fails.  Input is the byte sequence, output the decoded code points. -/
def utf8DecodeLossy : List Nat → List Nat
  | [] => []
  | b :: rest =>
    if b ≤ 0x7F then b :: utf8DecodeLossy rest
    else if 0xC2 ≤ b && b ≤ 0xDF then
      match rest with
      | [] => [0xFFFD]
      | c1 :: r1 =>
        if isCont c1 then ((b % 0x20) * 0x40 + c1 % 0x40) :: utf8DecodeLossy r1
        else 0xFFFD :: utf8DecodeLossy (c1 :: r1)
    else if 0xE0 ≤ b && b ≤ 0xEF then
      match rest with
      | [] => [0xFFFD]
      | c1 :: r1 =>
        if (if b == 0xE0 then (0xA0:Nat) else 0x80) ≤ c1 && c1 ≤ (if b == 0xED then (0x9F:Nat) else 0xBF) then
          match r1 with
          | [] => [0xFFFD]
          | c2 :: r2 =>
            if isCont c2 then
              ((b % 0x10) * 0x1000 + (c1 % 0x40) * 0x40 + c2 % 0x40) :: utf8DecodeLossy r2
            else 0xFFFD :: utf8DecodeLossy (c2 :: r2)
        else 0xFFFD :: utf8DecodeLossy (c1 :: r1)
    else if 0xF0 ≤ b && b ≤ 0xF4 then
      match rest with
      | [] => [0xFFFD]
      | c1 :: r1 =>
        if (if b == 0xF0 then (0x90:Nat) else 0x80) ≤ c1 && c1 ≤ (if b == 0xF4 then (0x8F:Nat) else 0xBF) then
          match r1 with
          | [] => [0xFFFD]
          | c2 :: r2 =>
            if isCont c2 then
              match r2 with
              | [] => [0xFFFD]
              | c3 :: r3 =>
                if isCont c3 then
                  ((b % 8) * 0x40000 + (c1 % 0x40) * 0x1000 + (c2 % 0x40) * 0x40 + c3 % 0x40)
                    :: utf8DecodeLossy r3
                else 0xFFFD :: utf8DecodeLossy (c3 :: r3)
            else 0xFFFD :: utf8DecodeLossy (c2 :: r2)
        else 0xFFFD :: utf8DecodeLossy (c1 :: r1)
    else 0xFFFD :: utf8DecodeLossy rest

/-- Strict UTF-8 decoding (specification-side): `none` exactly when the byte
sequence is not valid UTF-8.  Same sequence structure as `utf8DecodeLossy`
but any invalidity fails the whole decode. -/
def utf8DecodeStrict : List Nat → Option (List Nat)
  | [] => some []
  | b :: rest =>
    if b ≤ 0x7F then (utf8DecodeStrict rest).map (b :: ·)
    else if 0xC2 ≤ b && b ≤ 0xDF then
      match rest with
      | [] => none
      | c1 :: r1 =>
        if isCont c1 then (utf8DecodeStrict r1).map (((b % 0x20) * 0x40 + c1 % 0x40) :: ·)
        else none
    else if 0xE0 ≤ b && b ≤ 0xEF then
      match rest with
      | [] => none
      | c1 :: r1 =>
        if (if b == 0xE0 then (0xA0:Nat) else 0x80) ≤ c1 && c1 ≤ (if b == 0xED then (0x9F:Nat) else 0xBF) then
          match r1 with
          | [] => none
          | c2 :: r2 =>
            if isCont c2 then
              (utf8DecodeStrict r2).map
                (((b % 0x10) * 0x1000 + (c1 % 0x40) * 0x40 + c2 % 0x40) :: ·)
            else none
        else none
    else if 0xF0 ≤ b && b ≤ 0xF4 then
      match rest with
      | [] => none
      | c1 :: r1 =>
        if (if b == 0xF0 then (0x90:Nat) else 0x80) ≤ c1 && c1 ≤ (if b == 0xF4 then (0x8F:Nat) else 0xBF) then
          match r1 with
          | [] => none
          | c2 :: r2 =>
            if isCont c2 then
              match r2 with
              | [] => none
              | c3 :: r3 =>
                if isCont c3 then
                  (utf8DecodeStrict r3).map
                    (((b % 8) * 0x40000 + (c1 % 0x40) * 0x1000 + (c2 % 0x40) * 0x40 + c3 % 0x40) :: ·)
                else none
            else none
        else none
    else none

/-- The outcome of one `client.download` call together with the consumption
of its `Readable` stream: either the stream ends normally after delivering
`chunks` (each chunk a byte list), or a transport/stream error is raised. -/
inductive StreamOutcome : Type where
  | success (chunks : List (List Nat)) : StreamOutcome
  | failure (e : String) : StreamOutcome
deriving Repr, DecidableEq

/-- `streamToString` (source lines 27–38): on `end`, all chunks are
concatenated (`Buffer.concat`) and decoded as UTF-8
(`.toString('utf8')`, which never fails); on `error`, the promise rejects
with the stream's error. -/
def streamToString : StreamOutcome → Except String (List Nat)
  | .success chunks => .ok (utf8DecodeLossy chunks.flatten)
  | .failure e => .error e

/-- One fetched message as consumed by the processing loop.  Only the
fields the core logic inspects are modelled (`uid`, `bodyStructure`); the
remaining envelope fields are copied verbatim into the output record by
`JSON.parse(JSON.stringify(email))` and are represented by the opaque
`envelope` payload. -/
structure EmailMsg where
  uid : Nat
  envelope : String
  bodyStructure : Option BodyStructureNode

/-- One output record (`item_json`, source lines 170–241): the cloned
envelope fields plus the conditionally-added `attachmentsInfo`,
`textContent` and `htmlContent` properties (`none` models an absent
property, never a `null` value). -/
structure OutputRecord where
  uid : Nat
  envelope : String
  attachmentsInfo : Option (List AttachmentInfo)
  textContent : Option (List Nat)
  htmlContent : Option (List Nat)

/-- A protocol request issued by the orchestrator, in order: consumption of
one message from the bulk `client.fetch` stream, or one `client.download`
call for a part of a message (addressed by uid). -/
inductive IoEvent : Type where
  | fetchMsg (uid : Nat) : IoEvent
  | download (uid : Nat) (partId : String) : IoEvent
deriving Repr, DecidableEq

/-- The outcome of the bulk `client.fetch(searchObject, fetchQuery)` async
iteration: the messages yielded in order and, optionally, a transport error
raised by the stream after yielding them. -/
structure BulkFetchOutcome where
  emails : List EmailMsg
  err : Option String

/-- The per-part download step (source lines 224–236): when a part id is
requested, a `client.download` request is issued and its stream is
materialised by `streamToString`; `dl` is the transport oracle giving the
stream outcome for each `(uid, partId)` request. -/
def doDownload (dl : Nat → String → StreamOutcome) (uid : Nat) (req : Option String) :
    List IoEvent × Except String (Option (List Nat)) :=
  match req with
  | none => ([], .ok none)
  | some pid => ([.download uid pid], (streamToString (dl uid pid)).map some)

/-- Processing of one buffered message (source lines 168–241): classify the
body structure when any of attachments/text/HTML is requested, add
`attachmentsInfo` exactly when its flag is set, then download text and HTML
content under the guards `includeTextContent && textPartId` and
`includeHtmlContent && htmlPartId`; a rejected download propagates as the
failure of the whole action.  Returns the issued download requests and
either the record or the error. -/
def processOne (includeParts : List String) (dl : Nat → String → StreamOutcome)
    (email : EmailMsg) : List IoEvent × Except String OutputRecord :=
  let includeAttachmentsInfo := includeParts.contains "attachmentsInfo"
  let includeTextContent := includeParts.contains "textContent"
  let includeHtmlContent := includeParts.contains "htmlContent"
  let analyzeBodyStructure := includeAttachmentsInfo || includeTextContent || includeHtmlContent
  let cls :=
    if analyzeBodyStructure then classifyRoot email.bodyStructure
    else { attachments := [], textPartId := none, htmlPartId := none }
  let base : OutputRecord :=
    { uid := email.uid
      envelope := email.envelope
      attachmentsInfo := if includeAttachmentsInfo then some cls.attachments else none
      textContent := none
      htmlContent := none }
  if includeTextContent || includeHtmlContent then
    let textReq := if includeTextContent then optTruthy cls.textPartId else none
    let htmlReq := if includeHtmlContent then optTruthy cls.htmlPartId else none
    let tRes := doDownload dl email.uid textReq
    match tRes.2 with
    | .error e => (tRes.1, .error e)
    | .ok tc =>
      let hRes := doDownload dl email.uid htmlReq
      match hRes.2 with
      | .error e => (tRes.1 ++ hRes.1, .error e)
      | .ok hc => (tRes.1 ++ hRes.1, .ok { base with textContent := tc, htmlContent := hc })
  else ([], .ok base)

/-- The `for (const email of emailsList)` processing loop (source lines
168–242): messages are processed in buffered order; the first error aborts
the loop and the accumulated `returnData` is discarded. -/
def processEmails (includeParts : List String) (dl : Nat → String → StreamOutcome) :
    List EmailMsg → List IoEvent × Except String (List OutputRecord)
  | [] => ([], .ok [])
  | e :: rest =>
    let r := processOne includeParts dl e
    match r.2 with
    | .error err => (r.1, .error err)
    | .ok rec =>
      let rs := processEmails includeParts dl rest
      match rs.2 with
      | .error err => (r.1 ++ rs.1, .error err)
      | .ok recs => (r.1 ++ rs.1, .ok (rec :: recs))

/-- `executeImapAction` (source lines 119–245), modelled from the point the
fetch query has been built: the bulk fetch stream is drained completely
into `emailsList` (one `fetchMsg` event per message, in order); an error
raised by the stream rejects the whole action before any processing;
otherwise every buffered message is processed in order.  Returns the full
ordered trace of protocol requests and the action's result. -/
def executeImapAction (includeParts : List String) (bulk : BulkFetchOutcome)
    (dl : Nat → String → StreamOutcome) : List IoEvent × Except String (List OutputRecord) :=
  let fetchEvents := bulk.emails.map (fun e => IoEvent.fetchMsg e.uid)
  match bulk.err with
  | some e => (fetchEvents, .error e)
  | none =>
    let pr := processEmails includeParts dl bulk.emails
    (fetchEvents ++ pr.1, pr.2)

/-- Whether a protocol request is a part download. -/
def isDownloadEvent : IoEvent → Bool
  | .download _ _ => true
  | .fetchMsg _ => false

/-- Whether a fallible computation succeeded. -/
def isOkB {α : Type} : Except String α → Bool
  | .ok _ => true
  | .error _ => false

/-- The data-model invariant on one node: a node with a non-empty children
list is a container and carries no `size`. -/
def goodNode (n : BodyStructureNode) : Bool :=
  n.childrenList.isEmpty || n.size.isNone

/-- A node with no children and a defined size: a content-bearing leaf. -/
def isLeafWithSize (n : BodyStructureNode) : Bool :=
  n.childrenList.isEmpty && n.size.isSome

/-- The attachment-disposition leaf descriptors of a message's body
structure as produced by the walker (empty when there is no body structure
or the root has no `childNodes`). -/
def attachmentLeavesOf (ob : Option BodyStructureNode) : List EmailPartInfo :=
  match ob with
  | none => []
  | some bs =>
    if bs.childNodes.isSome then
      (getEmailPartsInfoRecursive bs).filter (fun p => p.disposition == some "attachment")
    else []

/-- A plain-text leaf part (concrete test data). -/
def leafText : BodyStructureNode :=
  .mk (some "1") (some "text/plain") (some "7bit") (some 10) none none none

/-- An HTML leaf part (concrete test data). -/
def leafHtml : BodyStructureNode :=
  .mk (some "2") (some "text/html") (some "7bit") (some 20) none none none

/-- A PDF attachment leaf part (concrete test data). -/
def leafAttach : BodyStructureNode :=
  .mk (some "3") (some "application/pdf") (some "base64") (some 500)
    (some "attachment") (some "a.pdf") none

/-- A structural decoration node without a `size` property (concrete test
data): tolerated by omission. -/
def decorationNode : BodyStructureNode :=
  .mk (some "4") (some "text/plain") none none none none none

/-- A multipart root with text, HTML, attachment and decoration children
(concrete test data). -/
def sampleRoot : BodyStructureNode :=
  .mk none (some "multipart/mixed") none none none none
    (some [leafText, leafHtml, leafAttach, decorationNode])

/-- An inner leaf below a malformed container (concrete test data). -/
def innerLeaf : BodyStructureNode :=
  .mk (some "1.1") (some "text/plain") (some "7bit") (some 7) none none none

/-- A malformed node carrying both a `size` and a non-empty `childNodes`
list, violating the data-model invariant (concrete test data). -/
def containerWithSize : BodyStructureNode :=
  .mk (some "1") (some "multipart/alternative") (some "7bit") (some 5) none none
    (some [innerLeaf])

/-- A tree whose only child is the malformed container (concrete test
data). -/
def badTree : BodyStructureNode :=
  .mk none (some "multipart/mixed") none none none none (some [containerWithSize])

/-- A concrete message whose body structure is `sampleRoot`. -/
def sampleEmail (u : Nat) : EmailMsg :=
  { uid := u, envelope := "env", bodyStructure := some sampleRoot }

/-- A transport oracle that fails downloads for message 2 and otherwise
delivers the bytes of `"hi"` (concrete test data). -/
def sampleDl : Nat → String → StreamOutcome :=
  fun uid _ => if uid == 2 then .failure "boom" else .success [[0x68], [0x69]]

theorem preorderNodes_eq (b : BodyStructureNode) :
    preorderNodes b = b :: preorderForest b.childrenList := by
  cases b with
  | mk p t e s d f cn =>
    cases cn with
    | none =>
      simp [preorderNodes, preorderForest, BodyStructureNode.childrenList, BodyStructureNode.childNodes]
    | some cs =>
      simp [preorderNodes, BodyStructureNode.childrenList, BodyStructureNode.childNodes]

mutual

theorem walk_eq_preorder (b : BodyStructureNode) :
    getEmailPartsInfoRecursive b =
      ((preorderForest b.childrenList).filter (fun n => n.size.isSome)).map partInfoOf := by
  cases b with
  | mk p t e s d f cn =>
    cases cn with
    | none =>
      simp [getEmailPartsInfoRecursive, BodyStructureNode.childrenList,
        BodyStructureNode.childNodes, preorderForest]
    | some cs =>
      simpa [getEmailPartsInfoRecursive, BodyStructureNode.childrenList,
        BodyStructureNode.childNodes] using walkChildren_eq_preorder cs

theorem walkChildren_eq_preorder (cs : List BodyStructureNode) :
    walkChildren cs = ((preorderForest cs).filter (fun n => n.size.isSome)).map partInfoOf := by
  match cs with
  | [] => simp [walkChildren, preorderForest]
  | c :: rest =>
    have ih1 := walk_eq_preorder c
    have ih2 := walkChildren_eq_preorder rest
    rw [walkChildren, preorderForest, preorderNodes_eq c]
    rw [List.cons_append, List.filter_cons, List.filter_append]
    cases hs : c.size.isSome with
    | true => simp [hs, ih1, ih2, partInfoOf]
    | false => simp [hs, ih1, ih2]

end

theorem getLast?_cons_getD {α : Type} (a : α) (l : List α) :
    (a :: l).getLast? = some (l.getLast?.getD a) := by
  induction l generalizing a with
  | nil => rfl
  | cons b m ih =>
    rw [List.getLast?_cons_cons, ih b]
    rfl

theorem classifyStep_att_true (acc : Classification) (p : EmailPartInfo)
    (hd : (p.disposition == some "attachment") = true) :
    classifyStep acc p = { acc with attachments := acc.attachments ++ [attachmentOf p] } := by
  simp [classifyStep, hd]

theorem classifyStep_att_false_attachments (acc : Classification) (p : EmailPartInfo)
    (hd : (p.disposition == some "attachment") = false) :
    (classifyStep acc p).attachments = acc.attachments := by
  simp only [classifyStep, hd, Bool.false_eq_true, if_false]
  split <;> split <;> rfl

theorem foldl_classify_attachments (parts : List EmailPartInfo) :
    ∀ acc : Classification,
      (parts.foldl classifyStep acc).attachments =
        acc.attachments ++
          ((parts.filter (fun p => p.disposition == some "attachment")).map attachmentOf) := by
  induction parts with
  | nil => intro acc; simp
  | cons p rest ih =>
    intro acc
    rw [List.foldl_cons, List.filter_cons, ih]
    cases hd : (p.disposition == some "attachment") with
    | true =>
      rw [classifyStep_att_true acc p hd]
      simp
    | false =>
      rw [classifyStep_att_false_attachments acc p hd]
      simp

theorem classifyStep_text_preserved (acc : Classification) (p : EmailPartInfo)
    (h : (p.disposition != some "attachment" && p.type == some "text/plain") = false) :
    (classifyStep acc p).textPartId = acc.textPartId := by
  cases hd : (p.disposition == some "attachment") with
  | true => simp [classifyStep, hd]
  | false =>
    have htp : (p.type == some "text/plain") = false := by
      simp only [bne, hd, Bool.not_false, Bool.true_and] at h
      exact h
    simp only [classifyStep, hd, Bool.false_eq_true, if_false, htp]
    split <;> rfl

theorem classifyStep_text_set (acc : Classification) (p : EmailPartInfo)
    (h : (p.disposition != some "attachment" && p.type == some "text/plain") = true) :
    (classifyStep acc p).textPartId = p.partId := by
  have hd : (p.disposition == some "attachment") = false := by
    cases hv : (p.disposition == some "attachment") with
    | false => rfl
    | true => simp [bne, hv] at h
  have htp : (p.type == some "text/plain") = true := by
    simp only [bne, hd, Bool.not_false, Bool.true_and] at h
    exact h
  have hty : p.type = some "text/plain" := eq_of_beq htp
  have hth : (p.type == some "text/html") = false := by
    rw [hty]; rfl
  simp [classifyStep, hd, htp, hth]

theorem classifyStep_html_preserved (acc : Classification) (p : EmailPartInfo)
    (h : (p.disposition != some "attachment" && p.type == some "text/html") = false) :
    (classifyStep acc p).htmlPartId = acc.htmlPartId := by
  cases hd : (p.disposition == some "attachment") with
  | true => simp [classifyStep, hd]
  | false =>
    have hth : (p.type == some "text/html") = false := by
      simp only [bne, hd, Bool.not_false, Bool.true_and] at h
      exact h
    simp only [classifyStep, hd, Bool.false_eq_true, if_false, hth]
    split <;> rfl

theorem classifyStep_html_set (acc : Classification) (p : EmailPartInfo)
    (h : (p.disposition != some "attachment" && p.type == some "text/html") = true) :
    (classifyStep acc p).htmlPartId = p.partId := by
  have hd : (p.disposition == some "attachment") = false := by
    cases hv : (p.disposition == some "attachment") with
    | false => rfl
    | true => simp [bne, hv] at h
  have hth : (p.type == some "text/html") = true := by
    simp only [bne, hd, Bool.not_false, Bool.true_and] at h
    exact h
  simp [classifyStep, hd, hth]

theorem foldl_classify_text (parts : List EmailPartInfo) :
    ∀ acc : Classification,
      (parts.foldl classifyStep acc).textPartId =
        (((parts.filter (fun p => p.disposition != some "attachment" && p.type == some "text/plain")).getLast?.map
            (fun p => p.partId)).getD acc.textPartId) := by
  induction parts with
  | nil => intro acc; simp
  | cons p rest ih =>
    intro acc
    rw [List.foldl_cons, ih]
    cases hq : (p.disposition != some "attachment" && p.type == some "text/plain") with
    | false =>
      rw [classifyStep_text_preserved acc p hq]
      have hfil :
          List.filter (fun q => q.disposition != some "attachment" && q.type == some "text/plain") (p :: rest) =
            List.filter (fun q => q.disposition != some "attachment" && q.type == some "text/plain") rest := by
        simp [List.filter_cons, hq]
      rw [hfil]
    | true =>
      rw [classifyStep_text_set acc p hq]
      have hfil :
          List.filter (fun q => q.disposition != some "attachment" && q.type == some "text/plain") (p :: rest) =
            p :: List.filter (fun q => q.disposition != some "attachment" && q.type == some "text/plain") rest := by
        simp [List.filter_cons, hq]
      rw [hfil, getLast?_cons_getD]
      cases (rest.filter (fun q => q.disposition != some "attachment" && q.type == some "text/plain")).getLast? <;> rfl

theorem foldl_classify_html (parts : List EmailPartInfo) :
    ∀ acc : Classification,
      (parts.foldl classifyStep acc).htmlPartId =
        (((parts.filter (fun p => p.disposition != some "attachment" && p.type == some "text/html")).getLast?.map
            (fun p => p.partId)).getD acc.htmlPartId) := by
  induction parts with
  | nil => intro acc; simp
  | cons p rest ih =>
    intro acc
    rw [List.foldl_cons, ih]
    cases hq : (p.disposition != some "attachment" && p.type == some "text/html") with
    | false =>
      rw [classifyStep_html_preserved acc p hq]
      have hfil :
          List.filter (fun q => q.disposition != some "attachment" && q.type == some "text/html") (p :: rest) =
            List.filter (fun q => q.disposition != some "attachment" && q.type == some "text/html") rest := by
        simp [List.filter_cons, hq]
      rw [hfil]
    | true =>
      rw [classifyStep_html_set acc p hq]
      have hfil :
          List.filter (fun q => q.disposition != some "attachment" && q.type == some "text/html") (p :: rest) =
            p :: List.filter (fun q => q.disposition != some "attachment" && q.type == some "text/html") rest := by
        simp [List.filter_cons, hq]
      rw [hfil, getLast?_cons_getD]
      cases (rest.filter (fun q => q.disposition != some "attachment" && q.type == some "text/html")).getLast? <;> rfl

theorem doDownload_events_download (dl : Nat → String → StreamOutcome) (uid : Nat)
    (req : Option String) :
    ∀ ev ∈ (doDownload dl uid req).1, isDownloadEvent ev = true := by
  cases req with
  | none => intro ev hev; simp [doDownload] at hev
  | some pid =>
    intro ev hev
    simp [doDownload] at hev
    simp [hev, isDownloadEvent]

theorem processOne_events_download (includeParts : List String)
    (dl : Nat → String → StreamOutcome) (email : EmailMsg) :
    ∀ ev ∈ (processOne includeParts dl email).1, isDownloadEvent ev = true := by
  intro ev hev
  simp only [processOne] at hev
  split at hev
  · split at hev
    · exact doDownload_events_download dl email.uid _ ev hev
    · split at hev
      · rw [List.mem_append] at hev
        cases hev with
        | inl h => exact doDownload_events_download dl email.uid _ ev h
        | inr h => exact doDownload_events_download dl email.uid _ ev h
      · rw [List.mem_append] at hev
        cases hev with
        | inl h => exact doDownload_events_download dl email.uid _ ev h
        | inr h => exact doDownload_events_download dl email.uid _ ev h
  · simp at hev

theorem processEmails_events_download (includeParts : List String)
    (dl : Nat → String → StreamOutcome) :
    ∀ emails : List EmailMsg, ∀ ev ∈ (processEmails includeParts dl emails).1,
      isDownloadEvent ev = true := by
  intro emails
  induction emails with
  | nil => intro ev hev; simp [processEmails] at hev
  | cons e rest ih =>
    intro ev hev
    simp only [processEmails] at hev
    split at hev
    · exact processOne_events_download includeParts dl e ev hev
    · split at hev
      · rw [List.mem_append] at hev
        cases hev with
        | inl h => exact processOne_events_download includeParts dl e ev h
        | inr h => exact ih ev h
      · rw [List.mem_append] at hev
        cases hev with
        | inl h => exact processOne_events_download includeParts dl e ev h
        | inr h => exact ih ev h

/-- Whether any buffered message fails its processing step (its content
download rejects). -/
def anyProcessError (includeParts : List String) (dl : Nat → String → StreamOutcome)
    (emails : List EmailMsg) : Bool :=
  emails.any (fun m => !(isOkB (processOne includeParts dl m).2))

set_option maxHeartbeats 1000000 in
theorem utf8_strict_none_fffd (bs : List Nat) (h : utf8DecodeStrict bs = none) :
    (0xFFFD : Nat) ∈ utf8DecodeLossy bs := by
  induction bs using utf8DecodeLossy.induct with
  | case1 => rw [utf8DecodeStrict.eq_def] at h; simp at h
  | case2 c r hle ih =>
    rw [utf8DecodeStrict.eq_def] at h
    simp [hle, Option.map_eq_none'] at h
    rw [utf8DecodeLossy.eq_def]
    simp [hle, List.mem_cons, ih h]
  | case3 c hle h2 =>
    rw [utf8DecodeLossy.eq_def]
    simp [hle, h2]
  | case4 c hle h2 c1 r1 hcont ih =>
    rw [utf8DecodeStrict.eq_def] at h
    simp [hle, h2, hcont, Option.map_eq_none'] at h
    rw [utf8DecodeLossy.eq_def]
    simp [hle, h2, hcont, List.mem_cons, ih h]
  | case5 c hle h2 c1 r1 hcont ih =>
    rw [utf8DecodeLossy.eq_def]
    simp [hle, h2, hcont]
  | case6 c hle h2 h3 =>
    rw [utf8DecodeLossy.eq_def]
    simp [hle, h2, h3]
  | case7 c hle h2 h3 c1 hcond =>
    simp only [Bool.and_eq_true, decide_eq_true_eq, beq_iff_eq] at hcond
    rw [utf8DecodeLossy.eq_def]
    simp [hle, h2, h3, hcond.1, hcond.2]
  | case8 c hle h2 h3 c1 hcond c2 r2 hcont ih =>
    simp only [Bool.and_eq_true, decide_eq_true_eq, beq_iff_eq] at hcond
    rw [utf8DecodeStrict.eq_def] at h
    simp [hle, h2, h3, hcond.1, hcond.2, hcont, Option.map_eq_none'] at h
    rw [utf8DecodeLossy.eq_def]
    simp [hle, h2, h3, hcond.1, hcond.2, hcont, List.mem_cons, ih h]
  | case9 c hle h2 h3 c1 hcond c2 r2 hcont ih =>
    simp only [Bool.and_eq_true, decide_eq_true_eq, beq_iff_eq] at hcond
    rw [utf8DecodeLossy.eq_def]
    simp [hle, h2, h3, hcond.1, hcond.2, hcont]
  | case10 c hle h2 h3 c1 r1 hcond ih =>
    simp only [Bool.and_eq_true, decide_eq_true_eq, beq_iff_eq] at hcond
    rw [utf8DecodeLossy.eq_def]
    simp [hle, h2, h3, hcond]
  | case11 c hle h2 h3 h4 =>
    rw [utf8DecodeLossy.eq_def]
    simp [hle, h2, h3, h4]
  | case12 c hle h2 h3 h4 c1 hcond =>
    simp only [Bool.and_eq_true, decide_eq_true_eq, beq_iff_eq] at hcond
    rw [utf8DecodeLossy.eq_def]
    simp [hle, h2, h3, h4, hcond.1, hcond.2]
  | case13 c hle h2 h3 h4 c1 hcond c2 hcont2 =>
    simp only [Bool.and_eq_true, decide_eq_true_eq, beq_iff_eq] at hcond
    rw [utf8DecodeLossy.eq_def]
    simp [hle, h2, h3, h4, hcond.1, hcond.2, hcont2]
  | case14 c hle h2 h3 h4 c1 hcond c2 hcont2 c3 r3 hcont3 ih =>
    simp only [Bool.and_eq_true, decide_eq_true_eq, beq_iff_eq] at hcond
    rw [utf8DecodeStrict.eq_def] at h
    simp [hle, h2, h3, h4, hcond.1, hcond.2, hcont2, hcont3, Option.map_eq_none'] at h
    rw [utf8DecodeLossy.eq_def]
    simp [hle, h2, h3, h4, hcond.1, hcond.2, hcont2, hcont3, List.mem_cons, ih h]
  | case15 c hle h2 h3 h4 c1 hcond c2 hcont2 c3 r3 hcont3 ih =>
    simp only [Bool.and_eq_true, decide_eq_true_eq, beq_iff_eq] at hcond
    rw [utf8DecodeLossy.eq_def]
    simp [hle, h2, h3, h4, hcond.1, hcond.2, hcont2, hcont3]
  | case16 c hle h2 h3 h4 c1 hcond c2 r2 hcont2 ih =>
    simp only [Bool.and_eq_true, decide_eq_true_eq, beq_iff_eq] at hcond
    rw [utf8DecodeLossy.eq_def]
    simp [hle, h2, h3, h4, hcond.1, hcond.2, hcont2]
  | case17 c hle h2 h3 h4 c1 r1 hcond ih =>
    simp only [Bool.and_eq_true, decide_eq_true_eq, beq_iff_eq] at hcond
    rw [utf8DecodeLossy.eq_def]
    simp [hle, h2, h3, h4, hcond]
  | case18 c r hle h2 h3 h4 ih =>
    rw [utf8DecodeLossy.eq_def]
    simp [hle, h2, h3, h4]

theorem processEmails_member_error (includeParts : List String)
    (dl : Nat → String → StreamOutcome) :
    ∀ emails : List EmailMsg, ∀ m ∈ emails,
      isOkB (processOne includeParts dl m).2 = false →
        isOkB (processEmails includeParts dl emails).2 = false := by
  intro emails
  induction emails with
  | nil => intro m hm; simp at hm
  | cons e rest ih =>
    intro m hm herr
    simp only [processEmails]
    rcases List.mem_cons.mp hm with heq | hmr
    · subst heq
      cases hpe : (processOne includeParts dl m).2 with
      | error err => simp [hpe, isOkB]
      | ok rec => rw [hpe] at herr; simp [isOkB] at herr
    · cases hpe : (processOne includeParts dl e).2 with
      | error err => simp [hpe, isOkB]
      | ok rec =>
        have hrec := ih m hmr herr
        cases hre : (processEmails includeParts dl rest).2 with
        | error err2 => simp [hpe, hre, isOkB]
        | ok recs => rw [hre] at hrec; simp [isOkB] at hrec

/-- C7: for every body-structure tree, the walker emits its part descriptors
in pre-order, depth-first order, visiting each node's children in the order
given by the tree: the output is exactly the pre-order list of the root's
proper descendants, restricted to nodes with a defined size, mapped to
their descriptors. -/
theorem c7_walker_preorder_traversal (b : BodyStructureNode) :
    getEmailPartsInfoRecursive b =
      ((preorderForest b.childrenList).filter (fun n => n.size.isSome)).map partInfoOf :=
  walk_eq_preorder b

/-- C9: for every inclusion-flag set, the bulk-fetch query requests `uid`
and `envelope` unconditionally, and requests `bodyStructure` exactly when
the `bodyStructure` flag itself, attachments info, plain-text content, or
HTML content is requested. -/
theorem c9_fetch_query_fields (parts : List String) :
    (buildFetchQuery parts).uid = true
  ∧ (buildFetchQuery parts).envelope = true
  ∧ (buildFetchQuery parts).bodyStructure =
      (parts.contains "bodyStructure" || parts.contains "attachmentsInfo"
        || parts.contains "textContent" || parts.contains "htmlContent") := by
  cases h1 : parts.contains "bodyStructure" <;>
  cases h2 : parts.contains "flags" <;>
  cases h3 : parts.contains "size" <;>
  cases h4 : parts.contains "attachmentsInfo" <;>
  cases h5 : parts.contains "textContent" <;>
  cases h6 : parts.contains "htmlContent" <;>
  (simp only [buildFetchQuery, h1, h2, h3, h4, h5, h6]) <;> simp

/-- C3: for every run, the orchestrator's request trace is the complete
consumption of the bulk-fetch stream followed only by download requests: no
part download is issued until the streamed message sequence has been
consumed to completion. -/
theorem c3_bulk_drained_before_downloads (parts : List String) (bulk : BulkFetchOutcome)
    (dl : Nat → String → StreamOutcome) :
    ∃ ds : List IoEvent,
      (executeImapAction parts bulk dl).1 =
        bulk.emails.map (fun e => IoEvent.fetchMsg e.uid) ++ ds
      ∧ ds.all isDownloadEvent = true := by
  cases hb : bulk.err with
  | some e =>
    refine ⟨[], ?_, rfl⟩
    simp [executeImapAction, hb]
  | none =>
    refine ⟨(processEmails parts dl bulk.emails).1, ?_, ?_⟩
    · simp [executeImapAction, hb]
    · exact List.all_eq_true.mpr
        (fun ev hev => processEmails_events_download parts dl bulk.emails ev hev)

/-- C6 (amended): a content byte stream that is not valid UTF-8 does not
fail the content fetch — the stream is materialised successfully with
U+FFFD replacement characters substituted for invalid sequences (at least
one replacement character appears in the result). -/
theorem c6_amended_lossy_decode (chunks : List (List Nat))
    (h : utf8DecodeStrict chunks.flatten = none) :
    streamToString (.success chunks) = .ok (utf8DecodeLossy chunks.flatten)
  ∧ (0xFFFD : Nat) ∈ utf8DecodeLossy chunks.flatten :=
  ⟨rfl, utf8_strict_none_fffd _ h⟩

/-- C6, counterexample to the claim as stated: the byte `0xFF` can never
occur in valid UTF-8, yet `streamToString` succeeds on it (the promise
resolves, nothing fails fatally) and returns the replacement character
U+FFFD. -/
theorem c6_counterexample_claim_false :
    utf8DecodeStrict [0xFF] = none
  ∧ streamToString (.success [[0xFF]]) = .ok [0xFFFD] :=
  ⟨rfl, rfl⟩

/-- C6, witness for the amended claim at the concrete stream `[[0xFF]]`. -/
theorem c6_amended_witness :
    utf8DecodeStrict (List.flatten [[0xFF]]) = none
  ∧ (streamToString (.success [[0xFF]]) = .ok (utf8DecodeLossy (List.flatten [[0xFF]]))
      ∧ (0xFFFD : Nat) ∈ utf8DecodeLossy (List.flatten [[0xFF]])) :=
  ⟨rfl, c6_amended_lossy_decode [[0xFF]] rfl⟩

/-- C2: for every body-structure root with a `childNodes` property, the
classification processes the walked descriptors in traversal order:
attachment-disposition leaves are appended to the attachments list in
order (with partId, filename, type, encoding, size), and among the
remaining leaves the last `text/plain` one determines `textPartId` and the
last `text/html` one determines `htmlPartId`. -/
theorem c2_multipart_classification (bs : BodyStructureNode)
    (h : bs.childNodes.isSome = true) :
    (classifyRoot (some bs)).attachments =
      ((getEmailPartsInfoRecursive bs).filter
          (fun p => p.disposition == some "attachment")).map attachmentOf
  ∧ (classifyRoot (some bs)).textPartId =
      (((getEmailPartsInfoRecursive bs).filter
          (fun p => p.disposition != some "attachment" && p.type == some "text/plain")).getLast?.map
            (fun p => p.partId)).getD none
  ∧ (classifyRoot (some bs)).htmlPartId =
      (((getEmailPartsInfoRecursive bs).filter
          (fun p => p.disposition != some "attachment" && p.type == some "text/html")).getLast?.map
            (fun p => p.partId)).getD none := by
  have hcr : classifyRoot (some bs) = classifyParts (getEmailPartsInfoRecursive bs) := by
    simp [classifyRoot, h]
  refine ⟨?_, ?_, ?_⟩
  · rw [hcr, classifyParts, foldl_classify_attachments]
    simp
  · rw [hcr, classifyParts, foldl_classify_text]
  · rw [hcr, classifyParts, foldl_classify_html]

/-- C2, witness at the concrete multipart root `sampleRoot`. -/
theorem c2_multipart_classification_witness :
    sampleRoot.childNodes.isSome = true
  ∧ ((classifyRoot (some sampleRoot)).attachments =
        ((getEmailPartsInfoRecursive sampleRoot).filter
            (fun p => p.disposition == some "attachment")).map attachmentOf
    ∧ (classifyRoot (some sampleRoot)).textPartId =
        (((getEmailPartsInfoRecursive sampleRoot).filter
            (fun p => p.disposition != some "attachment" && p.type == some "text/plain")).getLast?.map
              (fun p => p.partId)).getD none
    ∧ (classifyRoot (some sampleRoot)).htmlPartId =
        (((getEmailPartsInfoRecursive sampleRoot).filter
            (fun p => p.disposition != some "attachment" && p.type == some "text/html")).getLast?.map
              (fun p => p.partId)).getD none) :=
  ⟨rfl, c2_multipart_classification sampleRoot rfl⟩

/-- C8: for every single-part body structure (no `childNodes` property),
classification never produces attachments; a `text/plain` root yields
`textPartId = "TEXT"` with `htmlPartId` absent, and a `text/html` root
yields `htmlPartId = "TEXT"` with `textPartId` absent. -/
theorem c8_single_part_sentinel (bs : BodyStructureNode) (h : bs.childNodes = none) :
    (classifyRoot (some bs)).attachments = []
  ∧ (bs.type = some "text/plain" →
      (classifyRoot (some bs)).textPartId = some "TEXT"
        ∧ (classifyRoot (some bs)).htmlPartId = none)
  ∧ (bs.type = some "text/html" →
      (classifyRoot (some bs)).htmlPartId = some "TEXT"
        ∧ (classifyRoot (some bs)).textPartId = none) := by
  have hcr : classifyRoot (some bs) =
      { attachments := []
        textPartId := if bs.type == some "text/plain" then some "TEXT" else none
        htmlPartId := if bs.type == some "text/html" then some "TEXT" else none } := by
    simp [classifyRoot, h]
  refine ⟨by rw [hcr], ?_, ?_⟩
  · intro ht
    rw [hcr]
    simp [ht]
  · intro ht
    rw [hcr]
    simp [ht]

/-- C8, witness at the concrete single-part plain-text root `leafText`. -/
theorem c8_single_part_sentinel_witness :
    leafText.childNodes = none
  ∧ ((classifyRoot (some leafText)).attachments = []
    ∧ (leafText.type = some "text/plain" →
        (classifyRoot (some leafText)).textPartId = some "TEXT"
          ∧ (classifyRoot (some leafText)).htmlPartId = none)
    ∧ (leafText.type = some "text/html" →
        (classifyRoot (some leafText)).htmlPartId = some "TEXT"
          ∧ (classifyRoot (some leafText)).textPartId = none)) :=
  ⟨rfl, c8_single_part_sentinel leafText rfl⟩

theorem goodNode_sized_eq_leafWithSize (n : BodyStructureNode) (hg : goodNode n = true) :
    n.size.isSome = isLeafWithSize n := by
  rw [isLeafWithSize]
  cases he : n.childrenList.isEmpty with
  | true => simp
  | false =>
    rw [goodNode, he, Bool.false_or] at hg
    simp [Option.isNone_iff_eq_none.mp hg]

/-- C1 (amended): for every body-structure tree whose root has a non-empty
children list and in which no node carries both a non-empty children list
and a `size` (the data-model invariant), the walker emits exactly one leaf
descriptor per node with no children and a defined size, in order — in
particular container nodes never appear in the output and a would-be leaf
missing its `size` is excluded rather than causing a failure. -/
theorem c1_amended_walk_leaves (t : BodyStructureNode)
    (hg : (preorderNodes t).all goodNode = true)
    (hc : t.childrenList ≠ []) :
    getEmailPartsInfoRecursive t = ((preorderNodes t).filter isLeafWithSize).map partInfoOf
  ∧ (getEmailPartsInfoRecursive t).length =
      ((preorderNodes t).filter isLeafWithSize).length := by
  have hroot : isLeafWithSize t = false := by
    rw [isLeafWithSize]
    have : t.childrenList.isEmpty = false := by simpa using hc
    simp [this]
  have hall : ∀ n ∈ preorderForest t.childrenList, goodNode n = true := by
    intro n hn
    have := List.all_eq_true.mp hg
    exact this n (by rw [preorderNodes_eq t]; exact List.mem_cons_of_mem _ hn)
  have hmain : getEmailPartsInfoRecursive t =
      ((preorderNodes t).filter isLeafWithSize).map partInfoOf := by
    rw [walk_eq_preorder t, preorderNodes_eq t, List.filter_cons_of_neg (by simp [hroot])]
    congr 1
    exact List.filter_congr (fun n hn => goodNode_sized_eq_leafWithSize n (hall n hn))
  exact ⟨hmain, by rw [hmain, List.length_map]⟩

/-- C1, counterexample to the claim as stated: on the malformed tree
`badTree`, whose only child `containerWithSize` has both children and a
`size`, the walker emits two descriptors while only one node (`innerLeaf`)
has no children and a defined size, and the container node itself appears
in the output. -/
theorem c1_counterexample_container_emitted :
    (getEmailPartsInfoRecursive badTree).length = 2
  ∧ ((preorderNodes badTree).filter isLeafWithSize).length = 1
  ∧ partInfoOf containerWithSize ∈ getEmailPartsInfoRecursive badTree
  ∧ containerWithSize.childrenList.isEmpty = false := by
  refine ⟨rfl, rfl, ?_, rfl⟩
  decide

/-- C1, witness for the amended claim at the concrete tree `sampleRoot`
(which contains a size-less decoration node, excluded from the output). -/
theorem c1_amended_walk_leaves_witness :
    (preorderNodes sampleRoot).all goodNode = true
  ∧ sampleRoot.childrenList ≠ []
  ∧ (getEmailPartsInfoRecursive sampleRoot =
        ((preorderNodes sampleRoot).filter isLeafWithSize).map partInfoOf
    ∧ (getEmailPartsInfoRecursive sampleRoot).length =
        ((preorderNodes sampleRoot).filter isLeafWithSize).length) :=
  ⟨rfl,
   by simp [sampleRoot, BodyStructureNode.childrenList, BodyStructureNode.childNodes],
   c1_amended_walk_leaves sampleRoot rfl
     (by simp [sampleRoot, BodyStructureNode.childrenList, BodyStructureNode.childNodes])⟩

/-- C4: a transport error — either raised by the bulk-fetch stream or by any
per-message content download — makes the whole listing fail: the action
returns an error, never a partial list of output records. -/
theorem c4_transport_error_no_partial_results (parts : List String)
    (bulk : BulkFetchOutcome) (dl : Nat → String → StreamOutcome)
    (h : (bulk.err.isSome || anyProcessError parts dl bulk.emails) = true) :
    isOkB (executeImapAction parts bulk dl).2 = false := by
  cases hb : bulk.err with
  | some e => simp [executeImapAction, hb, isOkB]
  | none =>
    rw [hb] at h
    simp only [Option.isSome_none, Bool.false_or] at h
    rw [anyProcessError, List.any_eq_true] at h
    obtain ⟨m, hm, hmb⟩ := h
    have hmb2 : isOkB (processOne parts dl m).2 = false := by
      cases hx : isOkB (processOne parts dl m).2 with
      | false => rfl
      | true => rw [hx] at hmb; simp at hmb
    have hp := processEmails_member_error parts dl bulk.emails m hm hmb2
    simpa [executeImapAction, hb] using hp

/-- C4, witness: with two messages and a transport oracle failing the
second message's text download, the whole action errors (no 1-of-2 partial
result). -/
theorem c4_transport_error_witness :
    ((BulkFetchOutcome.mk [sampleEmail 1, sampleEmail 2] none).err.isSome
      || anyProcessError ["textContent"] sampleDl
           (BulkFetchOutcome.mk [sampleEmail 1, sampleEmail 2] none).emails) = true
  ∧ isOkB (executeImapAction ["textContent"]
      (BulkFetchOutcome.mk [sampleEmail 1, sampleEmail 2] none) sampleDl).2 = false :=
  ⟨rfl, c4_transport_error_no_partial_results ["textContent"]
    (BulkFetchOutcome.mk [sampleEmail 1, sampleEmail 2] none) sampleDl rfl⟩

theorem processOne_no_content_flags_no_events (parts : List String)
    (dl : Nat → String → StreamOutcome) (e : EmailMsg)
    (ht : parts.contains "textContent" = false)
    (hh : parts.contains "htmlContent" = false) :
    (processOne parts dl e).1 = [] := by
  have ht2 : ¬("textContent" ∈ parts) := by simpa using ht
  have hh2 : ¬("htmlContent" ∈ parts) := by simpa using hh
  simp [processOne, ht2, hh2]

theorem processEmails_no_content_flags_no_events (parts : List String)
    (dl : Nat → String → StreamOutcome)
    (ht : parts.contains "textContent" = false)
    (hh : parts.contains "htmlContent" = false) :
    ∀ emails : List EmailMsg, (processEmails parts dl emails).1 = [] := by
  intro emails
  induction emails with
  | nil => rfl
  | cons e rest ih =>
    simp only [processEmails]
    have h1 := processOne_no_content_flags_no_events parts dl e ht hh
    cases hpe : (processOne parts dl e).2 with
    | error err => simp [hpe, h1]
    | ok rec =>
      cases hre : (processEmails parts dl rest).2 with
      | error err2 => simp [hpe, hre, h1, ih]
      | ok recs => simp [hpe, hre, h1, ih]

theorem fetch_events_no_downloads (ems : List EmailMsg) :
    ((ems.map (fun e => IoEvent.fetchMsg e.uid)).filter (fun ev => isDownloadEvent ev)) = [] := by
  induction ems with
  | nil => rfl
  | cons x xs ih => simp [isDownloadEvent, ih]

/-- C5 (amended): when none of the attachments/text/HTML flags is selected,
the orchestrator issues no download request at all, and the bulk-fetch
query requests `bodyStructure` exactly when the `bodyStructure` flag itself
was selected (the claim's stronger reading — that `bodyStructure` is never
requested — fails when that flag is selected, see the counterexample). -/
theorem c5_amended_no_content_flags (parts : List String) (bulk : BulkFetchOutcome)
    (dl : Nat → String → StreamOutcome)
    (ha : parts.contains "attachmentsInfo" = false)
    (ht : parts.contains "textContent" = false)
    (hh : parts.contains "htmlContent" = false) :
    ((executeImapAction parts bulk dl).1.filter (fun ev => isDownloadEvent ev)) = []
  ∧ (buildFetchQuery parts).bodyStructure = parts.contains "bodyStructure" := by
  constructor
  · cases hb : bulk.err with
    | some e =>
      simp [executeImapAction, hb, fetch_events_no_downloads]
    | none =>
      simp [executeImapAction, hb, List.filter_append, fetch_events_no_downloads,
        processEmails_no_content_flags_no_events parts dl ht hh bulk.emails]
  · cases h1 : parts.contains "bodyStructure" <;>
    cases h2 : parts.contains "flags" <;>
    cases h3 : parts.contains "size" <;>
    (simp only [buildFetchQuery, ha, ht, hh, h1, h2, h3]) <;> simp

/-- C5, counterexample to the claim as stated: selecting only the
`bodyStructure` flag selects none of the attachments/text/HTML flags, yet
the fetch query does request `bodyStructure`. -/
theorem c5_counterexample_bodystructure_flag :
    (["bodyStructure"].contains "attachmentsInfo" = false
  ∧ ["bodyStructure"].contains "textContent" = false
  ∧ ["bodyStructure"].contains "htmlContent" = false)
  ∧ (buildFetchQuery ["bodyStructure"]).bodyStructure = true :=
  ⟨⟨rfl, rfl, rfl⟩, rfl⟩

/-- C5, witness for the amended claim at the concrete flag set `["flags"]`. -/
theorem c5_amended_witness :
    (["flags"].contains "attachmentsInfo" = false
  ∧ ["flags"].contains "textContent" = false
  ∧ ["flags"].contains "htmlContent" = false)
  ∧ (((executeImapAction ["flags"] (BulkFetchOutcome.mk [sampleEmail 1] none) sampleDl).1.filter
        (fun ev => isDownloadEvent ev)) = []
    ∧ (buildFetchQuery ["flags"]).bodyStructure = ["flags"].contains "bodyStructure") :=
  ⟨⟨rfl, rfl, rfl⟩,
   c5_amended_no_content_flags ["flags"] (BulkFetchOutcome.mk [sampleEmail 1] none) sampleDl
     rfl rfl rfl⟩

theorem classifyRoot_attachments_map (ob : Option BodyStructureNode) :
    (classifyRoot ob).attachments = (attachmentLeavesOf ob).map attachmentOf := by
  cases ob with
  | none => rfl
  | some bs =>
    cases hcn : bs.childNodes.isSome with
    | false =>
      simp [classifyRoot, attachmentLeavesOf, hcn]
    | true =>
      rw [attachmentLeavesOf]
      simp only [hcn, if_true, classifyRoot, classifyParts]
      rw [foldl_classify_attachments]
      simp

theorem doDownload_ok_isSome (dl : Nat → String → StreamOutcome) (uid : Nat)
    (req : Option String) (x : Option (List Nat))
    (h : (doDownload dl uid req).2 = .ok x) : x.isSome = req.isSome := by
  cases req with
  | none =>
    simp only [doDownload] at h
    cases h
    rfl
  | some pid =>
    simp only [doDownload] at h
    cases hs : dl uid pid with
    | success chunks =>
      rw [hs] at h
      simp only [streamToString, Except.map] at h
      cases h
      rfl
    | failure e =>
      rw [hs] at h
      simp only [streamToString, Except.map] at h
      cases h

/-- C10: in every successfully produced output record, the
`attachmentsInfo` field is present exactly when its flag is requested (an
empty list when the message has no body structure or no
attachment-disposition leaves, never omitted and never null), while
`textContent`/`htmlContent` are present only when their flag is set and a
matching part id was found. -/
theorem c10_record_field_inclusion (parts : List String) (dl : Nat → String → StreamOutcome)
    (e : EmailMsg) (evs : List IoEvent) (rec : OutputRecord)
    (h : processOne parts dl e = (evs, .ok rec)) :
    (parts.contains "attachmentsInfo" = true →
        rec.attachmentsInfo = some ((attachmentLeavesOf e.bodyStructure).map attachmentOf))
  ∧ (parts.contains "attachmentsInfo" = false → rec.attachmentsInfo = none)
  ∧ (parts.contains "attachmentsInfo" = true → attachmentLeavesOf e.bodyStructure = [] →
        rec.attachmentsInfo = some [])
  ∧ (rec.textContent.isSome = true →
        parts.contains "textContent" = true
      ∧ (optTruthy (classifyRoot e.bodyStructure).textPartId).isSome = true)
  ∧ (rec.htmlContent.isSome = true →
        parts.contains "htmlContent" = true
      ∧ (optTruthy (classifyRoot e.bodyStructure).htmlPartId).isSome = true) := by
  simp only [processOne] at h
  split at h
  · split at h
    · simp at h
    · rename_i x1 tc heqT
      split at h
      · simp at h
      · rename_i x2 hc heqH
        rw [Prod.mk.injEq] at h
        obtain ⟨hev, hrec⟩ := h
        rw [Except.ok.injEq] at hrec
        subst hrec
        refine ⟨?_, ?_, ?_, ?_, ?_⟩
        · intro hA
          have hA2 : "attachmentsInfo" ∈ parts := by simpa using hA
          simp [hA2, classifyRoot_attachments_map]
        · intro hA
          have hA2 : ¬("attachmentsInfo" ∈ parts) := by simpa using hA
          simp [hA2]
        · intro hA hleaf
          have hA2 : "attachmentsInfo" ∈ parts := by simpa using hA
          simp [hA2, classifyRoot_attachments_map, hleaf]
        · intro hT
          have htc : tc.isSome = true := hT
          have hreq := (doDownload_ok_isSome dl e.uid _ tc heqT).symm.trans htc
          cases hct : parts.contains "textContent" with
          | false =>
            rw [hct] at hreq
            simp at hreq
          | true =>
            refine ⟨rfl, ?_⟩
            rw [hct] at hreq
            simpa using hreq
        · intro hH
          have hhc : hc.isSome = true := hH
          have hreq := (doDownload_ok_isSome dl e.uid _ hc heqH).symm.trans hhc
          cases hch : parts.contains "htmlContent" with
          | false =>
            rw [hch] at hreq
            simp at hreq
          | true =>
            refine ⟨rfl, ?_⟩
            rw [hch] at hreq
            simpa using hreq
  · rename_i hTH
    rw [Prod.mk.injEq] at h
    obtain ⟨hev, hrec⟩ := h
    rw [Except.ok.injEq] at hrec
    subst hrec
    refine ⟨?_, ?_, ?_, ?_, ?_⟩
    · intro hA
      have hA2 : "attachmentsInfo" ∈ parts := by simpa using hA
      simp [hA2, classifyRoot_attachments_map]
    · intro hA
      have hA2 : ¬("attachmentsInfo" ∈ parts) := by simpa using hA
      simp [hA2]
    · intro hA hleaf
      have hA2 : "attachmentsInfo" ∈ parts := by simpa using hA
      simp [hA2, classifyRoot_attachments_map, hleaf]
    · intro hT
      simp at hT
    · intro hH
      simp at hH

/-- C10, witness at the concrete flag set `["attachmentsInfo"]` and message
`sampleEmail 1`. -/
theorem c10_record_field_inclusion_witness :
    processOne ["attachmentsInfo"] sampleDl (sampleEmail 1) =
      ([], .ok (OutputRecord.mk 1 "env"
        (some [AttachmentInfo.mk (some "3") (some "a.pdf") (some "application/pdf")
          (some "base64") (some 500)]) none none))
  ∧ ((["attachmentsInfo"].contains "attachmentsInfo" = true →
        (OutputRecord.mk 1 "env"
          (some [AttachmentInfo.mk (some "3") (some "a.pdf") (some "application/pdf")
            (some "base64") (some 500)]) none none).attachmentsInfo =
          some ((attachmentLeavesOf (sampleEmail 1).bodyStructure).map attachmentOf))
    ∧ (["attachmentsInfo"].contains "attachmentsInfo" = false →
        (OutputRecord.mk 1 "env"
          (some [AttachmentInfo.mk (some "3") (some "a.pdf") (some "application/pdf")
            (some "base64") (some 500)]) none none).attachmentsInfo = none)
    ∧ (["attachmentsInfo"].contains "attachmentsInfo" = true →
        attachmentLeavesOf (sampleEmail 1).bodyStructure = [] →
        (OutputRecord.mk 1 "env"
          (some [AttachmentInfo.mk (some "3") (some "a.pdf") (some "application/pdf")
            (some "base64") (some 500)]) none none).attachmentsInfo = some [])
    ∧ ((OutputRecord.mk 1 "env"
          (some [AttachmentInfo.mk (some "3") (some "a.pdf") (some "application/pdf")
            (some "base64") (some 500)]) none none).textContent.isSome = true →
        ["attachmentsInfo"].contains "textContent" = true
      ∧ (optTruthy (classifyRoot (sampleEmail 1).bodyStructure).textPartId).isSome = true)
    ∧ ((OutputRecord.mk 1 "env"
          (some [AttachmentInfo.mk (some "3") (some "a.pdf") (some "application/pdf")
            (some "base64") (some 500)]) none none).htmlContent.isSome = true →
        ["attachmentsInfo"].contains "htmlContent" = true
      ∧ (optTruthy (classifyRoot (sampleEmail 1).bodyStructure).htmlPartId).isSome = true)) :=
  ⟨rfl, c10_record_field_inclusion ["attachmentsInfo"] sampleDl (sampleEmail 1) [] _ rfl⟩
